import Mathlib

/-!
Verification of the BlenderKit client daemon core (src/client/main.go).

The development shallowly embeds the task registry, the channelled mutation
bus (handleChannels), the job workers (doSearch, DownloadThumbnail), the
report endpoint (reportHandler) and the upload pipeline (UploadAsset,
PackBlendFile, upload_asset_data).  External I/O (HTTP calls, the
filesystem, the packing subprocess) is modelled by explicit outcome
parameters; a Go runtime panic is modelled by returning none.
-/

namespace BlenderKitClient

/-- Result and payload values carried by tasks (interface\x7b\x7d in Go).
NewTask replaces a nil result with an empty dictionary. -/
inductive JVal where
  | emptyDict
  | s (v : String)
  | n (v : Int)
deriving DecidableEq, Repr

/-- Data for one thumbnail download, as built by parseThumbnails. -/
structure DownloadThumbnailData where
  thumbnailType : String
  imagePath : String
  imageURL : String
  assetBaseID : String
  index : Int
deriving DecidableEq, Repr

/-- Payload stored in Task.Data (interface\x7b\x7d in Go): the empty
dictionary substituted for nil, a generic JSON value, or the thumbnail
download payload used by DownloadThumbnail. -/
inductive TaskData where
  | emptyDict
  | json (v : JVal)
  | thumb (d : DownloadThumbnailData)
deriving DecidableEq, Repr

/-- Task, mirroring the Go struct field for field.  The context/cancel
pair is modelled by the cancelSignalled flag (Cancel() sets it); the
internal Error field is never assigned in the embedded code and is
omitted. -/
structure Task where
  data : TaskData
  appID : Int
  taskID : String
  taskType : String
  message : String
  messageDetailed : String
  progress : Int
  status : String
  result : JVal
  cancelSignalled : Bool
deriving DecidableEq, Repr

/-- NewTask: nil data becomes an empty dictionary, status starts at
created, result starts as an empty dictionary. -/
def NewTask (data : Option TaskData) (appID : Int) (taskID taskType : String) : Task :=
  { data := data.getD TaskData.emptyDict
    appID := appID
    taskID := taskID
    taskType := taskType
    message := ""
    messageDetailed := ""
    progress := 0
    status := "created"
    result := JVal.emptyDict
    cancelSignalled := false }

/-- Task.Finish(message): sets status to finished and the message. -/
def finishTask (t : Task) (message : String) : Task :=
  { t with status := "finished", message := message }

/-- One client namespace: the inner map taskID to Task, as an association
list with at most one binding per key in every state the program reaches. -/
abbrev TaskNamespace := List (String × Task)

/-- The two level registry Tasks : appID to namespace. -/
abbrev Registry := List (Int × TaskNamespace)

/-- Lookup of a task id in a namespace (first binding wins). -/
def tFind : TaskNamespace → String → Option Task
  | [], _ => none
  | (k, v) :: rest, tid => if k = tid then some v else tFind rest tid

/-- Insert or replace a binding in a namespace. -/
def tInsert : TaskNamespace → String → Task → TaskNamespace
  | [], tid, t => [(tid, t)]
  | (k, v) :: rest, tid, t =>
      if k = tid then (k, t) :: rest else (k, v) :: tInsert rest tid t

/-- Update the first binding of a key in place (Go mutates the Task the
map points to). -/
def tModify : TaskNamespace → String → (Task → Task) → TaskNamespace
  | [], _, _ => []
  | (k, v) :: rest, tid, f =>
      if k = tid then (k, f v) :: rest else (k, v) :: tModify rest tid f

/-- Remove the first binding of a key (Go delete). -/
def tErase : TaskNamespace → String → TaskNamespace
  | [], _ => []
  | (k, v) :: rest, tid => if k = tid then rest else (k, v) :: tErase rest tid

/-- Lookup of a client namespace in the registry. -/
def nsFind : Registry → Int → Option TaskNamespace
  | [], _ => none
  | (a, ns) :: rest, app => if a = app then some ns else nsFind rest app

/-- Update the first binding of a client namespace in place. -/
def nsModify : Registry → Int → (TaskNamespace → TaskNamespace) → Registry
  | [], _, _ => []
  | (a, ns) :: rest, app, f =>
      if a = app then (a, f ns) :: rest else (a, ns) :: nsModify rest app f

/-- Tasks[app][tid] read: a missing namespace reads as a nil map whose
lookups yield the zero value, so the composite read is a plain Option. -/
def taskFind (r : Registry) (app : Int) (tid : String) : Option Task :=
  match nsFind r app with
  | none => none
  | some ns => tFind ns tid

/-- Status of the task stored under (app, tid), when present. -/
def taskStatus (r : Registry) (app : Int) (tid : String) : Option String :=
  (taskFind r app tid).map Task.status

/-- Message of the task stored under (app, tid), when present. -/
def taskMessage (r : Registry) (app : Int) (tid : String) : Option String :=
  (taskFind r app tid).map Task.message

/-- Result of the task stored under (app, tid), when present. -/
def taskResult (r : Registry) (app : Int) (tid : String) : Option JVal :=
  (taskFind r app tid).map Task.result

/-- The six mutation messages consumed by handleChannels, one per
channel (AddTaskCh, TaskProgressUpdateCh, TaskMessageCh, TaskFinishCh,
TaskErrorCh, TaskCancelCh). -/
inductive ChannelMessage where
  | add (task : Task)
  | progressUpdate (appID : Int) (taskID : String) (progress : Int) (message : String)
  | messageUpdate (appID : Int) (taskID : String) (message : String)
  | finish (appID : Int) (taskID : String) (message : String) (result : JVal)
  | taskError (appID : Int) (taskID : String) (error : String)
  | cancel (appID : Int) (taskID : String) (reason : String)
deriving DecidableEq, Repr

/-- One iteration of the handleChannels select loop.  Returning none
models a Go runtime panic: assigning into a nil inner map (add with an
unknown namespace) or dereferencing the nil Task pointer obtained from a
lookup of an unknown task.  handleChannels runs without recover, so none
means the goroutine and hence the whole daemon dies. -/
def handleChannelsStep (r : Registry) (m : ChannelMessage) : Option Registry :=
  match m with
  | .add t =>
      match nsFind r t.appID with
      | none => none
      | some _ => some (nsModify r t.appID (fun ns => tInsert ns t.taskID t))
  | .progressUpdate app tid p msg =>
      match taskFind r app tid with
      | none => none
      | some _ =>
          some (nsModify r app (fun ns => tModify ns tid (fun t =>
            { t with progress := p,
                     message := if msg = "" then t.message else msg })))
  | .messageUpdate app tid msg =>
      match taskFind r app tid with
      | none => none
      | some _ =>
          some (nsModify r app (fun ns => tModify ns tid (fun t =>
            { t with message := msg })))
  | .finish app tid msg res =>
      match taskFind r app tid with
      | none => none
      | some _ =>
          some (nsModify r app (fun ns => tModify ns tid (fun t =>
            { t with status := "finished", result := res,
                     message := if msg = "" then t.message else msg })))
  | .taskError app tid e =>
      match taskFind r app tid with
      | none => none
      | some t =>
          if t.status = "cancelled" then
            some (nsModify r app (fun ns => tErase ns tid))
          else
            some (nsModify r app (fun ns => tModify ns tid (fun t =>
              { t with message := e, status := "error" })))
  | .cancel app tid _reason =>
      match taskFind r app tid with
      | none => none
      | some _ =>
          some (nsModify r app (fun ns => tModify ns tid (fun t =>
            { t with status := "cancelled", cancelSignalled := true })))

/-- Run a list of mutations through the bus loop; none as soon as one
iteration panics. -/
def runMutations (r : Registry) : List ChannelMessage → Option Registry
  | [] => some r
  | m :: ms =>
      match handleChannelsStep r m with
      | none => none
      | some r2 => runMutations r2 ms

example :
    handleChannelsStep [(1, [("t", NewTask none 1 "t" "search")])]
      (ChannelMessage.cancel 1 "t" "user") =
    some [(1, [("t", { NewTask none 1 "t" "search" with
                        status := "cancelled", cancelSignalled := true })])] := by
  decide

/-! ## doSearch worker -/

/-- Outcome of the external steps of the doSearch worker: request
construction failure, transport failure of ClientAPI.Do, a body that does
not decode, or a decoded search result. -/
inductive SearchOutcome where
  | reqErr (e : String)
  | transportErr (e : String)
  | decodeErr (e : String)
  | ok (searchResult : JVal)
deriving DecidableEq, Repr

/-- doSearch: registers the task directly in the registry under the lock
(none when the namespace is absent, the nil map assignment panic), then
performs the request.  On the three failure outcomes the Go code only
logs and returns: no mutation reaches the task, which stays in created
status.  On success it stores the result and calls task.Finish directly
under the lock.  The subsequent go parseThumbnails is modelled
separately. -/
def doSearch (rJSON : JVal) (appID : Int) (taskID : String) (o : SearchOutcome)
    (r : Registry) : Option Registry :=
  match nsFind r appID with
  | none => none
  | some _ =>
      let task := NewTask (some (TaskData.json rJSON)) appID taskID "search"
      let r1 := nsModify r appID (fun ns => tInsert ns taskID task)
      match o with
      | .reqErr _ => some r1
      | .transportErr _ => some r1
      | .decodeErr _ => some r1
      | .ok searchResult =>
          some (nsModify r1 appID (fun ns => tModify ns taskID (fun t =>
            finishTask { t with result := searchResult } "Search results downloaded")))

/-! ## Thumbnail batch -/

/-- Per candidate body of the parseThumbnails loop: build the task; when
the target file already exists on disk call task.Finish with the message
"thumbnail on disk" and keep it out of the batch lists, otherwise append
it to the batch.  Returns (all created tasks, tasks handed to
downloadImageBatch); every created task is also stored in the registry,
which the report model reads separately. -/
def parseThumbnails (fileExists : String → Bool) (appID : Int) :
    List (String × DownloadThumbnailData) → List Task × List Task
  | [] => ([], [])
  | (tid, d) :: rest =>
      let res := parseThumbnails fileExists appID rest
      let task := NewTask (some (TaskData.thumb d)) appID tid "thumbnail_download"
      if fileExists d.imagePath then
        (finishTask task "thumbnail on disk" :: res.1, res.2)
      else
        (task :: res.1, task :: res.2)

/-- Outcome of the external steps of one DownloadThumbnail worker. -/
inductive ThumbOutcome where
  | reqErr
  | transportErr
  | statusErr
  | createErr
  | copyErr
  | ok
deriving DecidableEq, Repr

/-- DownloadThumbnail: returns the task after the worker ran, the number
of fetches issued through ClientBigThumbs.Do, and the bus mutation the
worker emitted (only the invalid data type path reports through
TaskErrorCh; every other path mutates the task directly under the lock).
A request construction failure only logs and returns before any fetch;
the create and copy failures happen after the single fetch. -/
def DownloadThumbnail (t : Task) (o : ThumbOutcome) :
    Task × Nat × Option ChannelMessage :=
  match t.data with
  | .thumb _ =>
      match o with
      | .reqErr => (t, 0, none)
      | .transportErr =>
          ({ t with message := "Error performing request to download thumbnail",
                    status := "error" }, 1, none)
      | .statusErr =>
          ({ t with message := "Error downloading thumbnail",
                    status := "error" }, 1, none)
      | .createErr =>
          ({ t with message := "Error creating file for thumbnail",
                    status := "error" }, 1, none)
      | .copyErr =>
          ({ t with message := "Error copying thumbnail response body to file",
                    status := "error" }, 1, none)
      | .ok => (finishTask t "thumbnail downloaded", 1, none)
  | _ => (t, 0, some (ChannelMessage.taskError t.appID t.taskID "invalid data type"))

/-- Total number of fetches issued by downloadImageBatch over a list of
batch tasks, one DownloadThumbnail worker per task. -/
def batchFetchCount (env : Task → ThumbOutcome) : List Task → Nat
  | [] => 0
  | t :: rest => (DownloadThumbnail t (env t)).2.1 + batchFetchCount env rest

/-! ## reportHandler -/

/-- The synthetic task of the report endpoint: NewTask(nil, appID, tid,
daemon status) finished with the message Daemon is running. -/
def daemonStatusTask (appID : Int) (tid : String) : Task :=
  finishTask (NewTask none appID tid "daemon_status") "Daemon is running"

/-- The loop body of reportHandler over one namespace: tasks whose AppID
differs from the polling client are skipped; the rest are reported and
the finished or errored ones are deleted right after being appended. -/
def reportCollect (ns : TaskNamespace) (appID : Int) : List Task :=
  (ns.filter (fun p => p.2.appID == appID)).map Prod.snd

/-- The namespace left behind by one reportHandler pass. -/
def reportPrune (ns : TaskNamespace) (appID : Int) : TaskNamespace :=
  ns.filter (fun p =>
    !(p.2.appID == appID && (p.2.status == "finished" || p.2.status == "error")))

/-- reportHandler core: create the namespace on first contact, then
return the synthetic daemon status entry followed by the namespace
snapshot, deleting every reported finished or errored task. -/
def reportHandler (r : Registry) (appID : Int) (reportTaskID : String) :
    List Task × Registry :=
  let r1 := match nsFind r appID with
            | none => (appID, ([] : TaskNamespace)) :: r
            | some _ => r
  match nsFind r1 appID with
  | none => ([daemonStatusTask appID reportTaskID], r1)
  | some ns =>
      (daemonStatusTask appID reportTaskID :: reportCollect ns appID,
       nsModify r1 appID (fun ns2 => reportPrune ns2 appID))

/-! ## Upload pipeline -/

/-- One file of the upload set as assembled by PackBlendFile. -/
structure UploadFile where
  type : String
  index : Int
  filePath : String
deriving DecidableEq, Repr

/-- The UploadAsset loop over data.UploadSet computing (isMainFileUpload,
isMetadataUpload, isThumbnailUpload). -/
def classifyUploadSet : List String → Bool × Bool × Bool
  | [] => (false, false, false)
  | f :: rest =>
      let (m, d, t) := classifyUploadSet rest
      (m || (f == "MAINFILE"), d || (f == "METADATA"), t || (f == "THUMBNAIL"))

/-- The slice of AssetUploadExportData that PackBlendFile reads. -/
structure AssetUploadExportData where
  thumbnailPath : String
  assetBaseID : String
  id : String
  tempDir : String
  binaryPath : String
  hdrFilepath : String
deriving DecidableEq, Repr

/-- The slice of the assets create or update response that the pipeline
reads. -/
structure AssetsCreateResponse where
  assetBaseID : String
  assetType : String
  id : String
  verificationStatus : String
deriving DecidableEq, Repr

/-- External world of PackBlendFile: the filesystem stat used by
FileExists, and the exit of the packing subprocess when it is invoked
(the error already formatted as by the Go code). -/
structure PackEnv where
  fileExists : String → Bool
  packExit : Except String Unit

/-- The THUMBNAIL and MAINFILE loop at the end of PackBlendFile. -/
def buildUploadFiles (thumbnailPath fpath : String) : List String → List UploadFile
  | [] => []
  | ft :: rest =>
      if ft = "THUMBNAIL" then
        { type := "thumbnail", index := 0, filePath := thumbnailPath }
          :: buildUploadFiles thumbnailPath fpath rest
      else if ft = "MAINFILE" then
        { type := "blend", index := 0, filePath := fpath }
          :: buildUploadFiles thumbnailPath fpath rest
      else
        buildUploadFiles thumbnailPath fpath rest

/-- PackBlendFile: fpath stays the empty string unless this is a main
file upload; for a non hdr main file upload the packing subprocess is
invoked once (counted in the first component).  Afterwards FileExists is
consulted on fpath unconditionally and a missing file aborts with the
manual packing error.  filepath.Join is modelled as slash
concatenation. -/
def PackBlendFile (exportData : AssetUploadExportData)
    (metadata : AssetsCreateResponse) (uploadSet : List String)
    (isMainFileUpload : Bool) (env : PackEnv) :
    Nat × Except String (List UploadFile) :=
  let export_data :=
    if exportData.assetBaseID = "" then
      { exportData with assetBaseID := metadata.assetBaseID, id := metadata.id }
    else exportData
  let upload_data :=
    { metadata with assetBaseID := export_data.assetBaseID, id := export_data.id }
  if isMainFileUpload then
    if upload_data.assetType = "hdr" then
      let fpath := export_data.hdrFilepath
      if env.fileExists fpath then
        (0, Except.ok (buildUploadFiles export_data.thumbnailPath fpath uploadSet))
      else
        (0, Except.error ("packed file (" ++ fpath ++
          ") does not exist, please try manual packing first"))
    else
      let fpath := export_data.tempDir ++ "/" ++ export_data.assetBaseID ++ ".blend"
      match env.packExit with
      | Except.error e => (1, Except.error e)
      | Except.ok _ =>
          if env.fileExists fpath then
            (1, Except.ok (buildUploadFiles export_data.thumbnailPath fpath uploadSet))
          else
            (1, Except.error ("packed file (" ++ fpath ++
              ") does not exist, please try manual packing first"))
  else
    let fpath := ""
    if env.fileExists fpath then
      (0, Except.ok (buildUploadFiles export_data.thumbnailPath fpath uploadSet))
    else
      (0, Except.error ("packed file (" ++ fpath ++
        ") does not exist, please try manual packing first"))

/-- External world of upload_asset_data: the per file upload negotiation
(get_S3_upload_JSON), the per file transfer plus done callback
(uploadFileToS3), and the final verification status PATCH. -/
structure UploadEnv where
  negotiate : UploadFile → Except String Unit
  transfer : UploadFile → Except String Unit
  patch : Except String Unit

/-- The per file loop at the head of upload_asset_data; the first failing
negotiation or transfer aborts. -/
def uploadFilesLoop (env : UploadEnv) : List UploadFile → Except String Unit
  | [] => Except.ok ()
  | f :: rest =>
      match env.negotiate f with
      | Except.error e => Except.error e
      | Except.ok _ =>
          match env.transfer f with
          | Except.error e => Except.error e
          | Except.ok _ => uploadFilesLoop env rest

/-- The set_uploaded_status computation of upload_asset_data, statement
for statement. -/
def computeSetUploadedStatus (isMainFileUpload : Bool)
    (metadataResp : AssetsCreateResponse) : Bool :=
  let s0 := false
  let s1 :=
    if isMainFileUpload = false then
      let a := if metadataResp.verificationStatus = "on_hold" then true else s0
      let b := if metadataResp.verificationStatus = "deleted" then true else a
      if metadataResp.verificationStatus = "rejected" then true else b
    else s0
  if isMainFileUpload then true else s1

/-- upload_asset_data: upload every file, then decide whether to PATCH
the remote verification status to uploaded.  The first component records
whether the PATCH was issued, the second the overall outcome. -/
def upload_asset_data (files : List UploadFile)
    (metadataResp : AssetsCreateResponse) (isMainFileUpload : Bool)
    (env : UploadEnv) : Bool × Except String Unit :=
  match uploadFilesLoop env files with
  | Except.error e => (false, Except.error e)
  | Except.ok _ =>
      if computeSetUploadedStatus isMainFileUpload metadataResp then
        (true, env.patch)
      else
        (false, Except.ok ())

/-! ## Association list lemmas -/

theorem tFind_tModify (ns : TaskNamespace) (tid : String) (f : Task → Task) :
    tFind (tModify ns tid f) tid = (tFind ns tid).map f := by
  induction ns with
  | nil => simp [tFind, tModify]
  | cons p rest ih =>
      obtain ⟨k, v⟩ := p
      by_cases h : k = tid
      · simp [tFind, tModify, h]
      · simp [tFind, tModify, h, ih]

theorem keys_tModify (ns : TaskNamespace) (tid : String) (f : Task → Task) :
    (tModify ns tid f).map Prod.fst = ns.map Prod.fst := by
  induction ns with
  | nil => simp [tModify]
  | cons p rest ih =>
      obtain ⟨k, v⟩ := p
      by_cases h : k = tid
      · simp [tModify, h]
      · simp [tModify, h, ih]

theorem tFind_eq_none_of_not_mem_keys (ns : TaskNamespace) (tid : String)
    (h : tid ∉ ns.map Prod.fst) : tFind ns tid = none := by
  induction ns with
  | nil => simp [tFind]
  | cons q rest ih =>
      obtain ⟨k, v⟩ := q
      simp only [List.map_cons, List.mem_cons] at h
      push_neg at h
      have hk : k ≠ tid := fun he => h.1 he.symm
      simp [tFind, hk, ih h.2]

theorem tFind_tErase_of_nodup (ns : TaskNamespace) (tid : String)
    (h : (ns.map Prod.fst).Nodup) :
    tFind (tErase ns tid) tid = none := by
  induction ns with
  | nil => simp [tFind, tErase]
  | cons p rest ih =>
      obtain ⟨k, v⟩ := p
      simp only [List.map_cons, List.nodup_cons] at h
      by_cases hk : k = tid
      · subst hk
        simp only [tErase, if_pos rfl]
        exact tFind_eq_none_of_not_mem_keys rest k h.1
      · simp only [tErase, if_neg hk, tFind, if_neg hk]
        exact ih h.2

theorem nsFind_nsModify (r : Registry) (app : Int) (f : TaskNamespace → TaskNamespace) :
    nsFind (nsModify r app f) app = (nsFind r app).map f := by
  induction r with
  | nil => simp [nsFind, nsModify]
  | cons p rest ih =>
      obtain ⟨a, ns⟩ := p
      by_cases h : a = app
      · simp [nsFind, nsModify, h]
      · simp [nsFind, nsModify, h, ih]

theorem tFind_filter_of_nodup (ns : TaskNamespace) (tid : String) (t : Task)
    (p : String × Task → Bool) (hnd : (ns.map Prod.fst).Nodup)
    (hfind : tFind ns tid = some t) (hp : p (tid, t) = false) :
    tFind (ns.filter p) tid = none := by
  induction ns with
  | nil => simp [tFind] at hfind
  | cons q rest ih =>
      obtain ⟨k, v⟩ := q
      simp only [List.map_cons, List.nodup_cons] at hnd
      by_cases hk : k = tid
      · subst hk
        simp [tFind] at hfind
        subst hfind
        simp only [List.filter_cons, hp]
        apply tFind_eq_none_of_not_mem_keys
        intro hmem
        rcases List.mem_map.mp hmem with ⟨q2, hq2, hq2eq⟩
        exact hnd.1 (List.mem_map.mpr ⟨q2, List.mem_of_mem_filter hq2, hq2eq⟩)
      · simp [tFind, hk] at hfind
        simp only [List.filter_cons]
        rcases hb : p (k, v) with _ | _
        · exact ih hnd.2 hfind
        · simp only [tFind, if_neg hk]
          exact ih hnd.2 hfind

theorem tFind_mem (ns : TaskNamespace) (tid : String) (t : Task)
    (h : tFind ns tid = some t) : (tid, t) ∈ ns := by
  induction ns with
  | nil => simp [tFind] at h
  | cons q rest ih =>
      obtain ⟨k, v⟩ := q
      by_cases hk : k = tid
      · subst hk
        simp [tFind] at h
        subst h
        exact List.mem_cons_self _ _
      · simp [tFind, hk] at h
        exact List.mem_cons_of_mem _ (ih h)

/-! ## Claim theorems -/

/-- C1: the claim states the bus loop logs and drops any mutation
referencing a clientId/taskId pair with no Task in the registry and never
crashes.  The code instead dereferences the nil Task pointer produced by
the lookup (or, for add, assigns into a nil inner map), which panics and
kills the daemon: every mutation kind evaluated at an unknown pair is a
panic (none), including the case where the namespace exists but holds a
different task. -/
theorem handleChannels_panics_on_unknown_task :
    handleChannelsStep [] (ChannelMessage.progressUpdate 1 "gone" 33 "") = none
    ∧ handleChannelsStep [] (ChannelMessage.messageUpdate 1 "gone" "hi") = none
    ∧ handleChannelsStep [] (ChannelMessage.finish 1 "gone" "done" (JVal.s "r")) = none
    ∧ handleChannelsStep [] (ChannelMessage.taskError 1 "gone" "boom") = none
    ∧ handleChannelsStep [] (ChannelMessage.cancel 1 "gone" "user") = none
    ∧ handleChannelsStep [] (ChannelMessage.add (NewTask none 1 "t" "search")) = none
    ∧ handleChannelsStep [(1, [("other", NewTask none 1 "other" "search")])]
        (ChannelMessage.progressUpdate 1 "gone" 33 "") = none :=
  ⟨by decide, by decide, by decide, by decide, by decide, by decide, by decide⟩

/-- The task and registry of the C2 counterexample. -/
def c2Task : Task := NewTask none 1 "t" "search"

/-- Registry holding the single C2 task. -/
def c2Registry : Registry := [(1, [("t", c2Task)])]

/-- C2 counterexample: the claim says a Finish mutation arriving after
the task is already cancelled does not change its status again.  On this
concrete run Cancel puts the task in cancelled status and the following
Finish nevertheless rewrites it to finished, a second terminal
transition. -/
theorem finish_overwrites_cancelled_cex :
    runMutations c2Registry [ChannelMessage.cancel 1 "t" "user"] =
      some [(1, [("t",
        { c2Task with
            status := "cancelled",
            cancelSignalled := true })])]
    ∧ runMutations c2Registry
        [ChannelMessage.cancel 1 "t" "user",
         ChannelMessage.finish 1 "t" "done" (JVal.s "R")] =
      some [(1, [("t",
        { c2Task with
            status := "finished",
            message := "done",
            result := JVal.s "R",
            cancelSignalled := true })])] := by
  decide

/-- C2 amended: the bus does not enforce a single terminal transition.
A Finish mutation processed while the task is already in cancelled or
error status overwrites the status to finished; the only guarded
double-terminal case is a Fail on a cancelled task, which removes the
task (see the C3 theorem). -/
theorem finish_after_cancel_overwrites (r : Registry) (app : Int) (tid : String)
    (t : Task) (msg : String) (res : JVal)
    (hfind : taskFind r app tid = some t)
    (hst : t.status = "cancelled" ∨ t.status = "error") :
    (handleChannelsStep r (ChannelMessage.finish app tid msg res)).bind
      (fun r2 => taskStatus r2 app tid) = some "finished" := by
  rcases hns : nsFind r app with _ | ns
  · unfold taskFind at hfind
    rw [hns] at hfind
    cases hfind
  · have ht : tFind ns tid = some t := by
      unfold taskFind at hfind
      rw [hns] at hfind
      exact hfind
    simp [handleChannelsStep, hfind, taskStatus, taskFind, nsFind_nsModify,
      hns, tFind_tModify, ht]

/-- Witness for the C2 amended theorem at a concrete cancelled task. -/
theorem finish_after_cancel_overwrites_witness :
    (handleChannelsStep
        [(1, [("t", { NewTask none 1 "t" "search" with status := "cancelled" })])]
        (ChannelMessage.finish 1 "t" "done" (JVal.s "R"))).bind
      (fun r2 => taskStatus r2 1 "t") = some "finished" :=
  finish_after_cancel_overwrites _ 1 "t"
    { NewTask none 1 "t" "search" with status := "cancelled" }
    "done" (JVal.s "R") (by decide) (Or.inl rfl)

/-- C3: a Cancel mutation followed by a Fail mutation for the same
(clientId, taskId): the cancel leaves the task in cancelled (never error)
status, and the subsequent Fail removes the task from the registry
without storing the error anywhere (the step result is exactly the
erasure), so the task is absent afterwards. -/
theorem cancel_then_fail_removes_task (r : Registry) (app : Int) (tid : String)
    (ns : TaskNamespace) (t : Task) (reason e : String)
    (hns : nsFind r app = some ns)
    (hnd : (ns.map Prod.fst).Nodup)
    (ht : tFind ns tid = some t) :
    ∃ r1, handleChannelsStep r (ChannelMessage.cancel app tid reason) = some r1
      ∧ taskStatus r1 app tid = some "cancelled"
      ∧ handleChannelsStep r1 (ChannelMessage.taskError app tid e)
          = some (nsModify r1 app (fun ns2 => tErase ns2 tid))
      ∧ taskFind (nsModify r1 app (fun ns2 => tErase ns2 tid)) app tid = none := by
  have hfind : taskFind r app tid = some t := by
    unfold taskFind
    rw [hns]
    exact ht
  refine ⟨nsModify r app (fun ns2 => tModify ns2 tid (fun u =>
    { u with status := "cancelled", cancelSignalled := true })), ?_, ?_, ?_, ?_⟩
  · simp [handleChannelsStep, hfind]
  · unfold taskStatus taskFind
    rw [nsFind_nsModify, hns]
    simp [tFind_tModify, ht]
  · have hfind1 : taskFind
        (nsModify r app (fun ns2 => tModify ns2 tid (fun u =>
          { u with status := "cancelled", cancelSignalled := true })))
        app tid =
        some { t with status := "cancelled", cancelSignalled := true } := by
      unfold taskFind
      rw [nsFind_nsModify, hns]
      simp [tFind_tModify, ht]
    simp [handleChannelsStep, hfind1]
  · have herase : tFind (tErase (tModify ns tid (fun u =>
        { u with status := "cancelled", cancelSignalled := true })) tid) tid = none := by
      apply tFind_tErase_of_nodup
      rw [keys_tModify]
      exact hnd
    simp [taskFind, nsFind_nsModify, hns, herase]

/-- Witness for the C3 theorem on a concrete one-task registry. -/
theorem cancel_then_fail_removes_task_witness :
    ∃ r1, handleChannelsStep [(1, [("t", NewTask none 1 "t" "download")])]
          (ChannelMessage.cancel 1 "t" "user cancel") = some r1
      ∧ taskStatus r1 1 "t" = some "cancelled"
      ∧ handleChannelsStep r1 (ChannelMessage.taskError 1 "t" "late failure")
          = some (nsModify r1 1 (fun ns2 => tErase ns2 "t"))
      ∧ taskFind (nsModify r1 1 (fun ns2 => tErase ns2 "t")) 1 "t" = none :=
  cancel_then_fail_removes_task [(1, [("t", NewTask none 1 "t" "download")])]
    1 "t" [("t", NewTask none 1 "t" "download")] (NewTask none 1 "t" "download")
    "user cancel" "late failure" (by decide) (by decide) (by decide)

/-- Thumbnail payload used when evaluating DownloadThumbnail error paths. -/
def c4ThumbData : DownloadThumbnailData :=
  { thumbnailType := "small", imagePath := "/tmp/img.jpg",
    imageURL := "http://example/img.jpg", assetBaseID := "b", index := 0 }

/-- C4: the claim states every worker path emits exactly one terminal
mutation.  Evaluating doSearch on each execution path over a registry with
an empty namespace for client 7: on request construction, transport or
decode failure the worker only logs and returns, leaving the registered
task in created status forever, with no Finish or Fail emitted; only the
success path records a terminal outcome.  Likewise DownloadThumbnail on a
request construction failure returns with no fetch, no task change and no
bus mutation. -/
theorem doSearch_error_paths_emit_no_terminal :
    (doSearch (JVal.s "q") 7 "t1" (SearchOutcome.reqErr "bad url") [(7, [])]).bind
        (fun r => taskStatus r 7 "t1") = some "created"
    ∧ (doSearch (JVal.s "q") 7 "t1" (SearchOutcome.transportErr "conn refused")
        [(7, [])]).bind (fun r => taskStatus r 7 "t1") = some "created"
    ∧ (doSearch (JVal.s "q") 7 "t1" (SearchOutcome.decodeErr "invalid json")
        [(7, [])]).bind (fun r => taskStatus r 7 "t1") = some "created"
    ∧ (doSearch (JVal.s "q") 7 "t1" (SearchOutcome.ok (JVal.s "results"))
        [(7, [])]).bind (fun r => taskStatus r 7 "t1") = some "finished"
    ∧ DownloadThumbnail (NewTask (some (TaskData.thumb c4ThumbData)) 7 "t2"
          "thumbnail_download") ThumbOutcome.reqErr
        = (NewTask (some (TaskData.thumb c4ThumbData)) 7 "t2" "thumbnail_download",
           0, none) :=
  ⟨by decide, by decide, by decide, by decide, by decide⟩

/-- The terminal task of the C5 counterexample. -/
def c5Task : Task :=
  { NewTask none 1 "t" "search" with
      status := "finished", message := "done", result := JVal.s "R" }

/-- Registry holding the single C5 task. -/
def c5Registry : Registry := [(1, [("t", c5Task)])]

/-- C5 counterexample: the claim states an UpdateProgress on a terminal
task is a no-op on status, message and result.  On this finished task a
progress update carrying a non empty message overwrites the stored
message (and the progress field), so the mutation is observably not a
no-op on the message. -/
theorem progress_update_changes_terminal_message_cex :
    taskMessage c5Registry 1 "t" = some "done"
    ∧ (handleChannelsStep c5Registry
          (ChannelMessage.progressUpdate 1 "t" 50 "late update")).bind
        (fun r => taskMessage r 1 "t") = some "late update"
    ∧ (handleChannelsStep c5Registry
          (ChannelMessage.progressUpdate 1 "t" 50 "late update")).bind
        (fun r => (taskFind r 1 "t").map Task.progress) = some 50 :=
  ⟨by decide, by decide, by decide⟩

/-- C5 amended: the bus applies UpdateProgress without a terminal status
guard.  On a task in a terminal status it leaves status and result
unchanged, but it does set the progress field, and it overwrites the
message whenever the update carries a non empty message; the stored
message survives only an empty update message. -/
theorem progress_update_on_terminal_task (r : Registry) (app : Int) (tid : String)
    (t : Task) (p : Int) (msg : String)
    (hfind : taskFind r app tid = some t)
    (hterm : t.status = "finished" ∨ t.status = "error" ∨ t.status = "cancelled") :
    (handleChannelsStep r (ChannelMessage.progressUpdate app tid p msg)).bind
        (fun r2 => taskFind r2 app tid)
      = some { t with progress := p,
                      message := if msg = "" then t.message else msg } := by
  rcases hns : nsFind r app with _ | ns
  · unfold taskFind at hfind
    rw [hns] at hfind
    cases hfind
  · have ht : tFind ns tid = some t := by
      unfold taskFind at hfind
      rw [hns] at hfind
      exact hfind
    simp [handleChannelsStep, hfind, taskFind, nsFind_nsModify, hns,
      tFind_tModify, ht]

/-- Witness for the C5 amended theorem on a concrete finished task. -/
theorem progress_update_on_terminal_task_witness :
    (handleChannelsStep c5Registry
        (ChannelMessage.progressUpdate 1 "t" 50 "late update")).bind
      (fun r2 => taskFind r2 1 "t")
      = some { c5Task with progress := 50,
                           message := if "late update" = "" then c5Task.message
                                      else "late update" } :=
  progress_update_on_terminal_task c5Registry 1 "t" c5Task 50 "late update"
    (by decide) (Or.inl rfl)

/-- C10: a Finish mutation with an empty message sets the status to
finished and stores the carried result while leaving the previously
stored message untouched; a Finish with a non empty message overwrites
the message; and a progress update with an empty message also leaves the
message untouched. -/
theorem finish_empty_message_preserves_message (r : Registry) (app : Int)
    (tid : String) (t : Task) (res : JVal) (p : Int)
    (hfind : taskFind r app tid = some t) :
    (handleChannelsStep r (ChannelMessage.finish app tid "" res)).bind
        (fun r2 => taskFind r2 app tid)
      = some { t with status := "finished", result := res }
    ∧ (∀ m : String, m ≠ "" →
        (handleChannelsStep r (ChannelMessage.finish app tid m res)).bind
            (fun r2 => taskFind r2 app tid)
          = some { t with status := "finished", result := res, message := m })
    ∧ (handleChannelsStep r (ChannelMessage.progressUpdate app tid p "")).bind
        (fun r2 => taskFind r2 app tid)
      = some { t with progress := p } := by
  rcases hns : nsFind r app with _ | ns
  · unfold taskFind at hfind
    rw [hns] at hfind
    cases hfind
  · have ht : tFind ns tid = some t := by
      unfold taskFind at hfind
      rw [hns] at hfind
      exact hfind
    refine ⟨?_, ?_, ?_⟩
    · simp [handleChannelsStep, hfind, taskFind, nsFind_nsModify, hns,
        tFind_tModify, ht]
    · intro m hm
      simp [handleChannelsStep, hfind, taskFind, nsFind_nsModify, hns,
        tFind_tModify, ht, hm]
    · simp [handleChannelsStep, hfind, taskFind, nsFind_nsModify, hns,
        tFind_tModify, ht]

/-- Witness for the C10 theorem on a concrete task carrying a message. -/
theorem finish_empty_message_preserves_message_witness :
    (handleChannelsStep [(1, [("t", { NewTask none 1 "t" "search" with
          message := "kept" })])]
        (ChannelMessage.finish 1 "t" "" (JVal.s "R"))).bind
        (fun r2 => taskFind r2 1 "t")
      = some { { NewTask none 1 "t" "search" with message := "kept" } with
                 status := "finished", result := JVal.s "R" } :=
  (finish_empty_message_preserves_message
    [(1, [("t", { NewTask none 1 "t" "search" with message := "kept" })])]
    1 "t" { NewTask none 1 "t" "search" with message := "kept" }
    (JVal.s "R") 0 (by decide)).1

/-- C6: one poll pass over an existing namespace whose tasks all belong
to the polling client returns the synthetic finished daemon status entry
followed by a snapshot of every task of the namespace, and leaves behind
exactly the tasks that are neither finished nor errored.  Consequently a
task observed finished (its result field travels inside the reported
snapshot unchanged) is reported once and, when the namespace keys are
duplicate free as Go maps guarantee, is absent from the registry on the
next poll. -/
theorem report_snapshot_and_prune (r : Registry) (appID : Int) (rid : String)
    (ns : TaskNamespace)
    (hns : nsFind r appID = some ns)
    (happ : ∀ p ∈ ns, (p : String × Task).2.appID = appID) :
    (reportHandler r appID rid).1 = daemonStatusTask appID rid :: ns.map Prod.snd
    ∧ (daemonStatusTask appID rid).status = "finished"
    ∧ nsFind (reportHandler r appID rid).2 appID
        = some (ns.filter (fun p =>
            !(p.2.status == "finished" || p.2.status == "error")))
    ∧ ∀ tid t, tFind ns tid = some t →
        (t.status = "finished" ∨ t.status = "error") →
          t ∈ (reportHandler r appID rid).1
          ∧ ((ns.map Prod.fst).Nodup →
              taskFind (reportHandler r appID rid).2 appID tid = none) := by
  have hcol : reportCollect ns appID = ns.map Prod.snd := by
    unfold reportCollect
    rw [List.filter_eq_self.mpr]
    · intro p hp
      simp [happ p hp]
  have hprune : reportPrune ns appID = ns.filter (fun p =>
      !(p.2.status == "finished" || p.2.status == "error")) := by
    unfold reportPrune
    apply List.filter_congr
    intro p hp
    simp [happ p hp]
  refine ⟨?_, rfl, ?_, ?_⟩
  · simp [reportHandler, hns, hcol]
  · simp [reportHandler, hns, nsFind_nsModify, hprune]
  · intro tid t htid hterm
    constructor
    · have hmem : (tid, t) ∈ ns := tFind_mem ns tid t htid
      have : t ∈ ns.map Prod.snd := List.mem_map.mpr ⟨(tid, t), hmem, rfl⟩
      simp [reportHandler, hns, hcol, this]
    · intro hnd
      have hmem : (tid, t) ∈ ns := tFind_mem ns tid t htid
      have happ2 : t.appID = appID := happ (tid, t) hmem
      have hp : (!(t.appID == appID &&
          (t.status == "finished" || t.status == "error"))) = false := by
        rcases hterm with h | h <;> simp [happ2, h]
      have : tFind (reportPrune ns appID) tid = none := by
        unfold reportPrune
        exact tFind_filter_of_nodup ns tid t _ hnd htid hp
      simp [reportHandler, hns, taskFind, nsFind_nsModify, this]

/-- Concrete namespace for the C6 witness: one finished task carrying a
result, one still running task. -/
def c6Namespace : TaskNamespace :=
  [("a", { NewTask none 1 "a" "search" with
             status := "finished", result := JVal.s "R" }),
   ("b", NewTask none 1 "b" "download")]

/-- Registry for the C6 witness. -/
def c6Registry : Registry := [(1, c6Namespace)]

/-- Witness for the C6 theorem: the poll response is the daemon entry
followed by both tasks in order. -/
theorem report_snapshot_and_prune_witness :
    (reportHandler c6Registry 1 "rid").1 =
      daemonStatusTask 1 "rid" :: c6Namespace.map Prod.snd :=
  (report_snapshot_and_prune c6Registry 1 "rid" c6Namespace
    (by decide) (by decide)).1

/-- C7: after every file of the upload set negotiates and transfers
successfully, the finalization PATCH is always issued for a main file
upload; for a non main file upload it is issued exactly when the pre
existing verification status is on_hold, deleted or rejected, and in
particular never for a validated asset. -/
theorem finalize_patch_condition (files : List UploadFile)
    (metadataResp : AssetsCreateResponse) (env : UploadEnv)
    (hok : ∀ f ∈ files,
      env.negotiate f = Except.ok () ∧ env.transfer f = Except.ok ()) :
    (upload_asset_data files metadataResp true env).1 = true
    ∧ ((upload_asset_data files metadataResp false env).1 = true ↔
        (metadataResp.verificationStatus = "on_hold"
         ∨ metadataResp.verificationStatus = "deleted"
         ∨ metadataResp.verificationStatus = "rejected"))
    ∧ (metadataResp.verificationStatus = "validated" →
        (upload_asset_data files metadataResp false env).1 = false) := by
  have hloop : ∀ (fs : List UploadFile),
      (∀ f ∈ fs, env.negotiate f = Except.ok () ∧ env.transfer f = Except.ok ()) →
      uploadFilesLoop env fs = Except.ok () := by
    intro fs
    induction fs with
    | nil => intro _; rfl
    | cons f rest ih =>
        intro h
        have h1 := h f (List.mem_cons_self _ _)
        simp only [uploadFilesLoop, h1.1, h1.2]
        exact ih (fun g hg => h g (List.mem_cons_of_mem _ hg))
  have hl := hloop files hok
  refine ⟨?_, ?_, ?_⟩
  · simp [upload_asset_data, hl, computeSetUploadedStatus]
  · by_cases h1 : metadataResp.verificationStatus = "on_hold" <;>
    by_cases h2 : metadataResp.verificationStatus = "deleted" <;>
    by_cases h3 : metadataResp.verificationStatus = "rejected" <;>
      simp [upload_asset_data, hl, computeSetUploadedStatus, h1, h2, h3]
  · intro hval
    simp [upload_asset_data, hl, computeSetUploadedStatus, hval]

/-- Environment of the C7 witness: every request succeeds. -/
def c7Env : UploadEnv :=
  { negotiate := fun _ => Except.ok ()
    transfer := fun _ => Except.ok ()
    patch := Except.ok () }

/-- File list of the C7 witness. -/
def c7Files : List UploadFile :=
  [{ type := "thumbnail", index := 0, filePath := "/tmp/thumb.png" }]

/-- Witness for the C7 theorem: a thumbnail only upload of an on hold
asset does issue the finalization PATCH. -/
theorem finalize_patch_condition_witness :
    (upload_asset_data c7Files
      { assetBaseID := "b", assetType := "model", id := "i",
        verificationStatus := "on_hold" } false c7Env).1 = true :=
  ((finalize_patch_condition c7Files
      { assetBaseID := "b", assetType := "model", id := "i",
        verificationStatus := "on_hold" } c7Env
      (fun _ _ => ⟨rfl, rfl⟩)).2.1).mpr (Or.inl rfl)

/-- Export data of the C8 evaluation. -/
def c8ExportData : AssetUploadExportData :=
  { thumbnailPath := "/tmp/thumb.png", assetBaseID := "base", id := "id1",
    tempDir := "/tmp", binaryPath := "/usr/bin/blender", hdrFilepath := "" }

/-- Metadata response of the C8 evaluation. -/
def c8Metadata : AssetsCreateResponse :=
  { assetBaseID := "base", assetType := "model", id := "id1",
    verificationStatus := "on_hold" }

/-- C8: the claim states an upload set without the primary content file
skips the packing subprocess and proceeds to the file upload stage.  The
first half is true: no subprocess is invoked (invocation count 0).  But
the pipeline does not proceed: fpath is left as the empty string and the
unconditional packed file existence check fails for every filesystem in
which the empty path does not name a file, so PackBlendFile aborts the
whole upload with the manual packing error before any file is
uploaded. -/
theorem thumbnail_only_upload_fails_packing (fs : String → Bool)
    (pexit : Except String Unit) (h : fs "" = false) :
    (classifyUploadSet ["THUMBNAIL"]).1 = false
    ∧ PackBlendFile c8ExportData c8Metadata ["THUMBNAIL"] false
        { fileExists := fs, packExit := pexit }
      = (0, Except.error
          "packed file () does not exist, please try manual packing first") := by
  refine ⟨rfl, ?_⟩
  simp [PackBlendFile, c8ExportData, h]

/-- Witness for the C8 theorem on the empty filesystem. -/
theorem thumbnail_only_upload_fails_packing_witness :
    (classifyUploadSet ["THUMBNAIL"]).1 = false
    ∧ PackBlendFile c8ExportData c8Metadata ["THUMBNAIL"] false
        { fileExists := fun _ => false, packExit := Except.ok () }
      = (0, Except.error
          "packed file () does not exist, please try manual packing first") :=
  thumbnail_only_upload_fails_packing (fun _ => false) (Except.ok ()) rfl

/-- Thumbnail data of the C9 counterexample. -/
def c9Data : DownloadThumbnailData :=
  { thumbnailType := "small", imagePath := "/tmp/x.jpg",
    imageURL := "http://example/x.jpg", assetBaseID := "b", index := 0 }

/-- C9 counterexample: the claim states a task whose target file exists
is marked finished with a "found on disk" message.  The code marks it
finished but with the message "thumbnail on disk" (the string "Found on
disk" belongs to the gravatar worker), and keeps it out of the batch so
no fetch is issued for it. -/
theorem thumbnail_on_disk_message_cex :
    ((parseThumbnails (fun _ => true) 1 [("t", c9Data)]).1.map Task.message)
      = ["thumbnail on disk"]
    ∧ ((parseThumbnails (fun _ => true) 1 [("t", c9Data)]).1.map Task.status)
      = ["finished"]
    ∧ ¬ ((parseThumbnails (fun _ => true) 1 [("t", c9Data)]).1.map Task.message)
        = ["found on disk"]
    ∧ (parseThumbnails (fun _ => true) 1 [("t", c9Data)]).2 = [] :=
  ⟨by decide, by decide, by decide, by decide⟩

theorem parseThumbnails_batch_mem (fs : String → Bool) (appID : Int) :
    ∀ (items : List (String × DownloadThumbnailData)),
      ∀ t ∈ (parseThumbnails fs appID items).2,
        t.status = "created" ∧ t.message = "" ∧ ∃ d, t.data = TaskData.thumb d
  | [] => by simp [parseThumbnails]
  | (tid, d) :: rest => by
      intro t ht
      by_cases hfs : fs d.imagePath
      · simp only [parseThumbnails, if_pos hfs] at ht
        exact parseThumbnails_batch_mem fs appID rest t ht
      · simp only [parseThumbnails, if_neg hfs, List.mem_cons] at ht
        rcases ht with h | h
        · subst h
          exact ⟨rfl, rfl, d, rfl⟩
        · exact parseThumbnails_batch_mem fs appID rest t h

theorem parseThumbnails_disk_count (fs : String → Bool) (appID : Int) :
    ∀ (items : List (String × DownloadThumbnailData)),
      ((parseThumbnails fs appID items).1.filter
          (fun t => t.message == "thumbnail on disk")).length
        = (items.filter (fun p => fs p.2.imagePath)).length
  | [] => rfl
  | (tid, d) :: rest => by
      have ih := parseThumbnails_disk_count fs appID rest
      by_cases hfs : fs d.imagePath
      · simp [parseThumbnails, hfs, List.filter_cons, finishTask, NewTask, ih]
      · simp [parseThumbnails, hfs, List.filter_cons, NewTask, ih]

theorem parseThumbnails_batch_count (fs : String → Bool) (appID : Int) :
    ∀ (items : List (String × DownloadThumbnailData)),
      (parseThumbnails fs appID items).2.length
        = (items.filter (fun p => !(fs p.2.imagePath))).length
  | [] => rfl
  | (tid, d) :: rest => by
      have ih := parseThumbnails_batch_count fs appID rest
      by_cases hfs : fs d.imagePath
      · simp [parseThumbnails, hfs, List.filter_cons, ih]
      · simp [parseThumbnails, hfs, List.filter_cons, ih]

theorem parseThumbnails_all_mem (fs : String → Bool) (appID : Int) :
    ∀ (items : List (String × DownloadThumbnailData)),
      ∀ t ∈ (parseThumbnails fs appID items).1,
        (t.status = "finished" ∧ t.message = "thumbnail on disk")
        ∨ t ∈ (parseThumbnails fs appID items).2
  | [] => by simp [parseThumbnails]
  | (tid, d) :: rest => by
      intro t ht
      by_cases hfs : fs d.imagePath
      · simp only [parseThumbnails, if_pos hfs, List.mem_cons] at ht ⊢
        rcases ht with h | h
        · subst h
          exact Or.inl ⟨rfl, rfl⟩
        · exact parseThumbnails_all_mem fs appID rest t h
      · simp only [parseThumbnails, if_neg hfs, List.mem_cons] at ht ⊢
        rcases ht with h | h
        · exact Or.inr (Or.inl h)
        · rcases parseThumbnails_all_mem fs appID rest t h with h2 | h2
          · exact Or.inl h2
          · exact Or.inr (Or.inr h2)

theorem batchFetchCount_eq_length (env : Task → ThumbOutcome) :
    ∀ (l : List Task),
      (∀ t ∈ l, (∃ d, t.data = TaskData.thumb d) ∧ env t ≠ ThumbOutcome.reqErr) →
      batchFetchCount env l = l.length
  | [] => fun _ => rfl
  | t :: rest => fun h => by
      obtain ⟨⟨d, hd⟩, hreq⟩ := h t (List.mem_cons_self _ _)
      have hcount : (DownloadThumbnail t (env t)).2.1 = 1 := by
        unfold DownloadThumbnail
        rw [hd]
        rcases henv : env t with _ | _ | _ | _ | _ | _
        · exact absurd henv hreq
        all_goals rfl
      have ih := batchFetchCount_eq_length env rest
        (fun g hg => h g (List.mem_cons_of_mem _ hg))
      simp only [batchFetchCount, hcount, ih, List.length_cons]
      omega

/-- C9 amended: in the thumbnail batch every task whose target file
exists on disk is finished with the message "thumbnail on disk" (not
"found on disk") and excluded from the batch, so no fetch is issued for
it; the number of such tasks is exactly the number of existing target
files; the remaining tasks form the batch and, as long as their request
construction succeeds, each issues exactly one fetch. -/
theorem thumbnail_batch_amended (fs : String → Bool) (appID : Int)
    (items : List (String × DownloadThumbnailData)) (env : Task → ThumbOutcome)
    (henv : ∀ t ∈ (parseThumbnails fs appID items).2,
      env t ≠ ThumbOutcome.reqErr) :
    (((parseThumbnails fs appID items).1.filter
        (fun t => t.message == "thumbnail on disk")).length
      = (items.filter (fun p => fs p.2.imagePath)).length)
    ∧ ((parseThumbnails fs appID items).2.length
      = (items.filter (fun p => !(fs p.2.imagePath))).length)
    ∧ (∀ t ∈ (parseThumbnails fs appID items).1,
        (t.status = "finished" ∧ t.message = "thumbnail on disk")
        ∨ t ∈ (parseThumbnails fs appID items).2)
    ∧ (∀ t ∈ (parseThumbnails fs appID items).1,
        t.message = "thumbnail on disk" → t ∉ (parseThumbnails fs appID items).2)
    ∧ batchFetchCount env (parseThumbnails fs appID items).2
      = (parseThumbnails fs appID items).2.length := by
  refine ⟨parseThumbnails_disk_count fs appID items,
          parseThumbnails_batch_count fs appID items,
          parseThumbnails_all_mem fs appID items, ?_, ?_⟩
  · intro t _ hmsg hbatch
    have hempty := (parseThumbnails_batch_mem fs appID items t hbatch).2.1
    rw [hmsg] at hempty
    exact absurd hempty (by decide)
  · apply batchFetchCount_eq_length
    intro t ht
    exact ⟨(parseThumbnails_batch_mem fs appID items t ht).2.2, henv t ht⟩

/-- Filesystem of the C9 witness: only one of the two targets exists. -/
def c9fs : String → Bool := fun path => path == "/tmp/exists.jpg"

/-- Items of the C9 witness. -/
def c9Items : List (String × DownloadThumbnailData) :=
  [("t1", { thumbnailType := "small", imagePath := "/tmp/exists.jpg",
            imageURL := "http://example/a.jpg", assetBaseID := "a", index := 0 }),
   ("t2", { thumbnailType := "small", imagePath := "/tmp/missing.jpg",
            imageURL := "http://example/b.jpg", assetBaseID := "b", index := 1 })]

/-- Witness for the C9 amended theorem: of two targets with one existing
file, exactly one task finishes on disk and the one batch task issues
exactly one fetch. -/
theorem thumbnail_batch_amended_witness :
    (((parseThumbnails c9fs 1 c9Items).1.filter
        (fun t => t.message == "thumbnail on disk")).length
      = (c9Items.filter (fun p => c9fs p.2.imagePath)).length)
    ∧ batchFetchCount (fun _ => ThumbOutcome.ok)
        (parseThumbnails c9fs 1 c9Items).2
      = (parseThumbnails c9fs 1 c9Items).2.length :=
  ⟨(thumbnail_batch_amended c9fs 1 c9Items (fun _ => ThumbOutcome.ok)
      (by decide)).1,
   (thumbnail_batch_amended c9fs 1 c9Items (fun _ => ThumbOutcome.ok)
      (by decide)).2.2.2.2⟩

end BlenderKitClient
